import Mathlib

/-!
Shallow embedding of `ZenodoDataDownload.py` (the resumable-transfer engine
`download_file` and the multi-pass batch orchestration in `main`).

File contents are modelled as `List Nat` (a list of bytes); the filesystem is a
map from filename to an optional content (`none` = the file does not exist).
The network is modelled as a supply of `NetEvent`s, one per issued HTTP request:
either the request itself fails (connection error / timeout / `raise_for_status`
on a 4xx-5xx status), or a response arrives with a status code, a content-length
header, the list of body chunks actually delivered and written, and a flag
saying whether the stream broke with an error after those chunks.

Python truthiness on the optional `expected_size` (where both `None` and `0`
are falsy) is modelled by `truthy`; `sizeVal` extracts the numeric value.
-/

namespace ZD

/-- Python truthiness of an optional integer: `None` and `0` are falsy. -/
def truthy : Option Nat → Bool
  | none => false
  | some n => n != 0

/-- Numeric value of an optional integer (`0` when absent). -/
def sizeVal : Option Nat → Nat
  | none => 0
  | some n => n

/-- The mode the local file is opened with: `wb` truncates, `ab` appends. -/
inductive Mode where
  | wb
  | ab
deriving DecidableEq

/-- The in-memory state of `download_file` just before one attempt issues its
request: the on-disk file, `initial_pos`, the open mode, and the optional
`Range: bytes=N-` header (`some N`). -/
structure AttemptState where
  file : Option (List Nat)
  initialPos : Nat
  mode : Mode
  range : Option Nat
deriving DecidableEq

/-- One network event answering one issued request. -/
inductive NetEvent where
  | requestError
  | response (status : Nat) (contentLength : Nat) (chunks : List (List Nat))
      (streamBroken : Bool)
deriving DecidableEq

/-- Result of the local check at the top of `download_file` (lines 68-87):
either return `True` at once (size already matches) or proceed into the retry
loop with an initial attempt state. -/
inductive SetupResult where
  | skip
  | proceed (st : AttemptState)
deriving DecidableEq

/-- Lines 68-87 of `download_file`: derive `initial_pos`, delete an oversize
file, and build the mode and `Range` header for the first attempt. -/
def setup (file : Option (List Nat)) (expected : Option Nat) : SetupResult :=
  match file with
  | none => .proceed ⟨none, 0, .wb, none⟩
  | some c =>
    let pos := c.length
    if truthy expected && decide (pos = sizeVal expected) then
      .skip
    else if truthy expected && decide (sizeVal expected < pos) then
      .proceed ⟨none, 0, .wb, none⟩
    else
      .proceed ⟨some c, pos,
        if 0 < pos then .ab else .wb,
        if 0 < pos then some pos else none⟩

/-- Observable outcome of one attempt (one iteration of the retry loop,
lines 91-123): whether the attempt returned `True`, the on-disk file
afterwards, the `initial_pos`/mode after the 200/206 adjustment, the
`total_size` fed to the progress bar, and whether a response was received. -/
structure AttemptExec where
  ok : Bool
  file : Option (List Nat)
  adjPos : Nat
  adjMode : Mode
  totalSize : Nat
  gotResponse : Bool
deriving DecidableEq

/-- One iteration of the retry loop of `download_file` (lines 91-123):
`raise_for_status`, the 206/200 resume adjustment, opening and streaming into
the file, and the final size verification. A request error or a 4xx/5xx status
raises before the file is opened, so the file is untouched there. -/
def runAttempt (st : AttemptState) (expected : Option Nat) (ev : NetEvent) :
    AttemptExec :=
  match ev with
  | .requestError => ⟨false, st.file, st.initialPos, st.mode, 0, false⟩
  | .response status clen chunks streamBroken =>
    if 400 ≤ status then
      ⟨false, st.file, st.initialPos, st.mode, 0, false⟩
    else
      let adj : Nat × Mode × Nat :=
        if 0 < st.initialPos then
          if status = 206 then (st.initialPos, st.mode, clen + st.initialPos)
          else if status = 200 then (0, .wb, clen)
          else (st.initialPos, st.mode, clen)
        else (st.initialPos, st.mode, clen)
      let base : List Nat :=
        match adj.2.1 with
        | .wb => []
        | .ab => st.file.getD []
      let written := base ++ chunks.flatten
      if streamBroken then
        ⟨false, some written, adj.1, adj.2.1, adj.2.2, true⟩
      else if truthy expected && decide (written.length ≠ sizeVal expected) then
        ⟨false, some written, adj.1, adj.2.1, adj.2.2, true⟩
      else
        ⟨true, some written, adj.1, adj.2.1, adj.2.2, true⟩

/-- The 206/200 resume adjustment of lines 96-108 in isolation: from
`initial_pos`, mode and the response, the adjusted position, mode and
progress total. -/
def adjResume (pos : Nat) (mode : Mode) (status clen : Nat) :
    Nat × Mode × Nat :=
  if 0 < pos then
    if status = 206 then (pos, mode, clen + pos)
    else if status = 200 then (0, .wb, clen)
    else (pos, mode, clen)
  else (pos, mode, clen)

/-- The streaming write of lines 112-116 in isolation: opening with the given
mode and appending every delivered chunk. -/
def streamWrite (file : Option (List Nat)) (m : Mode)
    (chunks : List (List Nat)) : List Nat :=
  (match m with | .wb => [] | .ab => file.getD []) ++ chunks.flatten

/-- Lines 131-139 of `download_file`: after a failed attempt, re-derive the
next attempt's state from the on-disk file (append mode and a `Range` header
whenever the file exists, fresh write otherwise). -/
def retryState (file : Option (List Nat)) : AttemptState :=
  match file with
  | some c => ⟨some c, c.length, .ab, some c.length⟩
  | none => ⟨none, 0, .wb, none⟩

/-- Result of a whole `download_file` call: the returned boolean, the final
on-disk file, the number of attempts made, and the trace of attempt states at
each issued request. -/
structure DLResult where
  success : Bool
  file : Option (List Nat)
  attempts : Nat
  requests : List AttemptState
deriving DecidableEq

/-- The retry loop of `download_file` (lines 89-142): run while
`retry_count < max_retries`, consuming one network event per attempt. -/
def downloadLoop (expected : Option Nat) (events : Nat → NetEvent) :
    Nat → Nat → AttemptState → DLResult
  | 0, _, st => ⟨false, st.file, 0, []⟩
  | fuel + 1, k, st =>
    let ex := runAttempt st expected (events k)
    if ex.ok then
      ⟨true, ex.file, 1, [st]⟩
    else
      let r := downloadLoop expected events fuel (k + 1) (retryState ex.file)
      ⟨r.success, r.file, r.attempts + 1, st :: r.requests⟩

/-- The whole of `download_file` (lines 64-142): the local check followed by
the bounded retry loop. -/
def download_file (file : Option (List Nat)) (expected : Option Nat)
    (maxRetries : Nat) (events : Nat → NetEvent) : DLResult :=
  match setup file expected with
  | .skip => ⟨true, file, 0, []⟩
  | .proceed st => downloadLoop expected events maxRetries 0 st

/-- Python `a or b` on optional strings: `None` and the empty string are
falsy. -/
def pyOrS : Option String → Option String → Option String
  | some s, b => if s = "" then b else some s
  | none, b => b

/-- Python truthiness of an optional string. -/
def strTruthy : Option String → Bool
  | some s => s != ""
  | none => false

/-- One manifest entry as read from the metadata `files` list (lines 189-191):
`key`/`filename` fields, `links.self`/`links.content` fields, and `size`. -/
structure FileInfo where
  key : Option String
  filenameField : Option String
  linkSelf : Option String
  linkContent : Option String
  size : Option Nat

/-- Line 189: `filename = file_info.get('key') or file_info.get('filename')`. -/
def entryName (fi : FileInfo) : Option String := pyOrS fi.key fi.filenameField

/-- Line 190: the download URL from `links.self or links.content`. -/
def entryUrl (fi : FileInfo) : Option String := pyOrS fi.linkSelf fi.linkContent

/-- Does `needle` match `hay` position by position at its head? -/
def charsMatchAt : List Char → List Char → Bool
  | [], _ => true
  | _ :: _, [] => false
  | a :: as, b :: bs => a == b && charsMatchAt as bs

/-- Does `needle` occur contiguously somewhere in the second list?
(Python's `in` on strings.) -/
def hasSub (needle : List Char) : List Char → Bool
  | [] => charsMatchAt needle []
  | b :: bs => charsMatchAt needle (b :: bs) || hasSub needle bs

/-- The characters of a string lowered (Python `.lower()`). -/
def lowerChars (s : String) : List Char := s.toList.map Char.toLower

/-- Line 197: the entry is skipped by the name filter iff the keyword is
non-empty and does not occur case-insensitively in the name. -/
def filterSkips (kw name : String) : Bool :=
  kw != "" && !(hasSub (lowerChars kw) (lowerChars name))

/-- The destination directory as a map from filename to optional content. -/
abbrev FS := String → Option (List Nat)

/-- Point update of the filesystem. -/
def FS.update (fs : FS) (name : String) (v : Option (List Nat)) : FS :=
  fun n => if n = name then v else fs n

/-- What the pass body did with one manifest entry. -/
inductive EntryAction where
  | skipUnparseable
  | skipFilter
  | skipComplete
  | ran (success : Bool)
deriving DecidableEq

/-- Is the entry counted into `files_to_download_count` (line 201)?  The count
happens after the unparseable/filter skips but before the quick
already-complete check. -/
def actionCounted : EntryAction → Bool
  | .skipUnparseable => false
  | .skipFilter => false
  | _ => true

/-- Did the entry fail its `download_file` call (line 213)? -/
def actionFailed : EntryAction → Bool
  | .ran false => true
  | _ => false

/-- The body of the per-entry loop of a pass (lines 183-215): skip unparseable
entries, apply the name filter, do the quick already-complete check, and
otherwise call `download_file`.  Returns the action taken, the filesystem
afterwards, and the number of HTTP requests issued for this entry. -/
def processEntry (kw : String) (net : String → Nat → NetEvent)
    (maxRetries : Nat) (fs : FS) (fi : FileInfo) :
    EntryAction × FS × Nat :=
  if !(strTruthy (entryName fi) && strTruthy (entryUrl fi)) then
    (.skipUnparseable, fs, 0)
  else
    let name := (entryName fi).getD ""
    let url := (entryUrl fi).getD ""
    if filterSkips kw name then
      (.skipFilter, fs, 0)
    else
      let quickSkip :=
        match fs name with
        | some c => truthy fi.size && decide (c.length = sizeVal fi.size)
        | none => false
      if quickSkip then
        (.skipComplete, fs, 0)
      else
        let r := download_file (fs name) fi.size maxRetries (net url)
        (.ran r.success, FS.update fs name r.file, r.requests.length)

/-- What one pass produced: `files_to_download_count`, the `all_downloaded`
flag, the names of entries whose `download_file` failed, the action taken per
entry, the filesystem afterwards, and the total number of requests. -/
structure PassOutcome where
  count : Nat
  allDownloaded : Bool
  failed : List String
  actions : List EntryAction
  fs : FS
  requestTotal : Nat

/-- One pass of the orchestrator loop (lines 178-215): sweep the manifest in
order, threading the filesystem through. -/
def runPass (kw : String) (net : String → Nat → NetEvent) (maxRetries : Nat) :
    List FileInfo → FS → PassOutcome
  | [], fs => ⟨0, true, [], [], fs, 0⟩
  | fi :: rest, fs =>
    let p := processEntry kw net maxRetries fs fi
    let r := runPass kw net maxRetries rest p.2.1
    ⟨(if actionCounted p.1 then 1 else 0) + r.count,
     !actionFailed p.1 && r.allDownloaded,
     (if actionFailed p.1 then [(entryName fi).getD ""] else []) ++ r.failed,
     p.1 :: r.actions,
     r.fs,
     p.2.2 + r.requestTotal⟩

/-- What the orchestrator does after a pass (lines 217-227). -/
inductive LoopDecision where
  | noMatching
  | allDone
  | nextPass
deriving DecidableEq

/-- Lines 217-227: break with "No matching files found." when the filtered
count is zero, break successfully when `all_downloaded`, otherwise sleep and
start a new pass. -/
def mainStep (po : PassOutcome) : LoopDecision :=
  if po.count = 0 then .noMatching
  else if po.allDownloaded then .allDone
  else .nextPass

/-- A concrete event supply: the first request is answered with status 200 and
an 8-byte body (more than expected), every later request fails. -/
def c7events : Nat → NetEvent := fun k =>
  if k = 0 then .response 200 8 [[0, 1, 2, 3, 4, 5, 6, 7]] false
  else .requestError

/-- Invariant of every attempt state that issues a request: `initial_pos` is
the on-disk size, and a positive `initial_pos` comes with a matching `Range`
header. -/
def stOK (st : AttemptState) : Prop :=
  ∀ c, st.file = some c →
    st.initialPos = c.length ∧ (0 < c.length → st.range = some c.length)

lemma stOK_retryState (f : Option (List Nat)) : stOK (retryState f) := by
  intro c hc
  cases f with
  | none => simp [retryState] at hc
  | some d =>
    simp only [retryState, Option.some.injEq] at hc
    subst hc
    exact ⟨rfl, fun _ => rfl⟩

lemma setup_proceed_stOK (file : Option (List Nat)) (expected : Option Nat)
    (st : AttemptState) (h : setup file expected = .proceed st) : stOK st := by
  cases file with
  | none =>
    simp only [setup, SetupResult.proceed.injEq] at h
    subst h
    intro c hc
    simp at hc
  | some d =>
    simp only [setup] at h
    split at h
    · exact absurd h (by simp)
    · split at h
      · simp only [SetupResult.proceed.injEq] at h
        subst h
        intro c hc
        simp at hc
      · simp only [SetupResult.proceed.injEq] at h
        subst h
        intro c hc
        simp only [Option.some.injEq] at hc
        subst hc
        refine ⟨rfl, fun hpos => ?_⟩
        simp [hpos]

lemma downloadLoop_requests_stOK (expected : Option Nat)
    (events : Nat → NetEvent) :
    ∀ fuel k st, stOK st →
      ∀ st' ∈ (downloadLoop expected events fuel k st).requests, stOK st' := by
  intro fuel
  induction fuel with
  | zero =>
    intro k st h st' hmem
    simp [downloadLoop] at hmem
  | succ n ih =>
    intro k st h st' hmem
    simp only [downloadLoop] at hmem
    by_cases hok : (runAttempt st expected (events k)).ok
    · simp only [hok, if_true, List.mem_singleton] at hmem
      subst hmem; exact h
    · simp only [hok, if_false, Bool.false_eq_true, List.mem_cons] at hmem
      rcases hmem with rfl | hmem
      · exact h
      · exact ih (k + 1) _ (stOK_retryState _) st' hmem

lemma runAttempt_206_totalSize (st : AttemptState) (expected : Option Nat)
    (clen : Nat) (chunks : List (List Nat)) (sb : Bool)
    (h : 0 < st.initialPos) :
    (runAttempt st expected (.response 206 clen chunks sb)).totalSize
      = clen + st.initialPos := by
  simp only [runAttempt]
  rw [if_neg (by omega)]
  simp only [h, if_true]
  split
  · rfl
  · split <;> rfl

/-- C1: every attempt on a file whose local size `K` is positive (and below
the expected size, when known) carries the header `Range: bytes=K-`, and a 206
answer makes the progress total `content-length + K`. -/
theorem C1_resume_range_header (file : Option (List Nat)) (expected : Option Nat)
    (maxRetries : Nat) (events : Nat → NetEvent) (st : AttemptState)
    (c : List Nat) (clen : Nat) (chunks : List (List Nat)) (sb : Bool)
    (hmem : st ∈ (download_file file expected maxRetries events).requests)
    (hfile : st.file = some c) (hpos : 0 < c.length)
    (_hlt : truthy expected = true → c.length < sizeVal expected) :
    st.range = some c.length ∧
    (runAttempt st expected (.response 206 clen chunks sb)).totalSize
      = clen + c.length := by
  have hOK : stOK st := by
    unfold download_file at hmem
    cases hs : setup file expected with
    | skip => rw [hs] at hmem; simp at hmem
    | proceed st0 =>
      rw [hs] at hmem
      exact downloadLoop_requests_stOK expected events maxRetries 0 st0
        (setup_proceed_stOK file expected st0 hs) st hmem
  obtain ⟨hpos', hrange⟩ := hOK c hfile
  refine ⟨hrange hpos, ?_⟩
  rw [runAttempt_206_totalSize st expected clen chunks sb (by omega)]
  omega

/-- Witness for C1: a concrete run resuming a one-byte file against an
expected size of 3. -/
theorem C1_resume_range_header_witness :
    (⟨some [7], 1, Mode.ab, some 1⟩ : AttemptState)
        ∈ (download_file (some [7]) (some 3) 1
            (fun _ => NetEvent.requestError)).requests ∧
      (⟨some [7], 1, Mode.ab, some 1⟩ : AttemptState).range = some 1 ∧
      (runAttempt ⟨some [7], 1, Mode.ab, some 1⟩ (some 3)
          (.response 206 10 [[1, 2]] false)).totalSize = 10 + 1 := by
  refine ⟨by decide, ?_⟩
  have h := C1_resume_range_header (some [7]) (some 3) 1
    (fun _ => NetEvent.requestError) ⟨some [7], 1, Mode.ab, some 1⟩
    [7] 10 [[1, 2]] false (by decide) (by decide) (by decide) (by decide)
  exact h

lemma runAttempt_200_resumed (st : AttemptState) (expected : Option Nat)
    (clen : Nat) (chunks : List (List Nat)) (sb : Bool)
    (hpos : 0 < st.initialPos) :
    runAttempt st expected (.response 200 clen chunks sb)
      = if sb then ⟨false, some chunks.flatten, 0, .wb, clen, true⟩
        else if truthy expected
            && decide (chunks.flatten.length ≠ sizeVal expected) then
          ⟨false, some chunks.flatten, 0, .wb, clen, true⟩
        else ⟨true, some chunks.flatten, 0, .wb, clen, true⟩ := by
  simp only [runAttempt]
  rw [if_neg (by omega)]
  simp only [hpos, if_true]
  norm_num

/-- C2: a ranged request (positive resume position) answered with status 200
restarts: the resume position resets to 0, the file is reopened truncating
(`wb`), the content-length is the full progress total, the resulting file is
exactly the delivered body, and a completed stream succeeds iff the delivered
body has the expected size. -/
theorem C2_ignored_range_restart (st : AttemptState) (expected : Option Nat)
    (clen : Nat) (chunks : List (List Nat)) (sb : Bool)
    (hpos : 0 < st.initialPos) :
    (runAttempt st expected (.response 200 clen chunks sb)).adjPos = 0 ∧
    (runAttempt st expected (.response 200 clen chunks sb)).adjMode = Mode.wb ∧
    (runAttempt st expected (.response 200 clen chunks sb)).totalSize = clen ∧
    (runAttempt st expected (.response 200 clen chunks sb)).file
      = some chunks.flatten ∧
    (sb = false →
      ((runAttempt st expected (.response 200 clen chunks sb)).ok = true ↔
        (truthy expected = true → chunks.flatten.length = sizeVal expected)))
    := by
  rw [runAttempt_200_resumed st expected clen chunks sb hpos]
  cases sb with
  | true => exact ⟨rfl, rfl, rfl, rfl, fun h => by cases h⟩
  | false =>
    simp only [Bool.false_eq_true, if_false]
    by_cases ht : truthy expected = true
    · by_cases hl : chunks.flatten.length = sizeVal expected
      · simp [ht, hl]
      · have hl' := hl
        simp only [List.length_flatten] at hl'
        simp [ht, hl, hl']
    · simp only [Bool.not_eq_true] at ht
      simp [ht]

/-- Witness for C2: a resumed two-byte file answered with a fresh 200 carrying
a three-byte body matching the expected size. -/
theorem C2_ignored_range_restart_witness :
    (runAttempt ⟨some [9, 9], 2, Mode.ab, some 2⟩ (some 3)
        (.response 200 3 [[1, 2, 3]] false)).adjPos = 0 ∧
    (runAttempt ⟨some [9, 9], 2, Mode.ab, some 2⟩ (some 3)
        (.response 200 3 [[1, 2, 3]] false)).adjMode = Mode.wb ∧
    (runAttempt ⟨some [9, 9], 2, Mode.ab, some 2⟩ (some 3)
        (.response 200 3 [[1, 2, 3]] false)).totalSize = 3 ∧
    (runAttempt ⟨some [9, 9], 2, Mode.ab, some 2⟩ (some 3)
        (.response 200 3 [[1, 2, 3]] false)).file
      = some (List.flatten [[1, 2, 3]]) ∧
    ((runAttempt ⟨some [9, 9], 2, Mode.ab, some 2⟩ (some 3)
        (.response 200 3 [[1, 2, 3]] false)).ok = true ↔
      (truthy (some 3) = true
        → (List.flatten [[1, 2, 3]]).length = sizeVal (some 3))) := by
  have h := C2_ignored_range_restart ⟨some [9, 9], 2, Mode.ab, some 2⟩ (some 3)
    3 [[1, 2, 3]] false (by decide)
  exact ⟨h.1, h.2.1, h.2.2.1, h.2.2.2.1, h.2.2.2.2 rfl⟩

lemma downloadLoop_all_fail (expected : Option Nat) (events : Nat → NetEvent)
    (hfail : ∀ st k, (runAttempt st expected (events k)).ok = false) :
    ∀ fuel k st, (downloadLoop expected events fuel k st).success = false ∧
      (downloadLoop expected events fuel k st).attempts = fuel := by
  intro fuel
  induction fuel with
  | zero => intro k st; exact ⟨rfl, rfl⟩
  | succ n ih =>
    intro k st
    simp only [downloadLoop, hfail st k, Bool.false_eq_true, if_false]
    exact ⟨(ih (k + 1) _).1, by rw [(ih (k + 1) _).2]⟩

lemma runPass_actions_length (kw : String) (net : String → Nat → NetEvent)
    (mr : Nat) :
    ∀ files fs, (runPass kw net mr files fs).actions.length = files.length := by
  intro files
  induction files with
  | nil => intro fs; rfl
  | cons fi rest ih =>
    intro fs
    simp only [runPass, List.length_cons]
    rw [ih]

/-- C3: with every attempt failing, `download_file` makes exactly
`maxRetries` attempts and returns failure; the orchestrator clears the
`all_downloaded` flag, records the entry as failed, and still processes every
remaining entry of the pass. -/
theorem C3_retry_bound (file : Option (List Nat)) (expected : Option Nat)
    (maxRetries : Nat) (events : Nat → NetEvent) (kw : String)
    (net : String → Nat → NetEvent) (fs : FS) (fi : FileInfo)
    (rest : List FileInfo)
    (hfail : ∀ st k, (runAttempt st expected (events k)).ok = false)
    (hns : setup file expected ≠ SetupResult.skip)
    (hran : (processEntry kw net maxRetries fs fi).1 = EntryAction.ran false) :
    (download_file file expected maxRetries events).success = false ∧
    (download_file file expected maxRetries events).attempts = maxRetries ∧
    (runPass kw net maxRetries (fi :: rest) fs).allDownloaded = false ∧
    (entryName fi).getD ""
      ∈ (runPass kw net maxRetries (fi :: rest) fs).failed ∧
    (runPass kw net maxRetries (fi :: rest) fs).actions.length
      = (fi :: rest).length := by
  have hdl : (download_file file expected maxRetries events).success = false ∧
      (download_file file expected maxRetries events).attempts = maxRetries := by
    unfold download_file
    cases hs : setup file expected with
    | skip => exact absurd hs hns
    | proceed st0 => exact downloadLoop_all_fail expected events hfail maxRetries 0 st0
  refine ⟨hdl.1, hdl.2, ?_, ?_, ?_⟩
  · simp only [runPass, hran, actionFailed, Bool.not_true, Bool.false_and]
  · simp only [runPass, hran, actionFailed, if_true, List.mem_append,
      List.mem_singleton]
    exact Or.inl trivial
  · exact runPass_actions_length kw net maxRetries (fi :: rest) fs

/-- Witness for C3: one entry, all requests failing, five retries. -/
theorem C3_retry_bound_witness :
    (download_file none none 5 (fun _ => NetEvent.requestError)).success
        = false ∧
    (download_file none none 5 (fun _ => NetEvent.requestError)).attempts = 5 ∧
    (runPass "" (fun _ _ => NetEvent.requestError) 5
        [⟨some "a.bin", none, some "u", none, none⟩]
        (fun _ => none)).allDownloaded = false ∧
    (entryName ⟨some "a.bin", none, some "u", none, none⟩).getD ""
      ∈ (runPass "" (fun _ _ => NetEvent.requestError) 5
          [⟨some "a.bin", none, some "u", none, none⟩] (fun _ => none)).failed ∧
    (runPass "" (fun _ _ => NetEvent.requestError) 5
        [⟨some "a.bin", none, some "u", none, none⟩]
        (fun _ => none)).actions.length
      = ([⟨some "a.bin", none, some "u", none, none⟩] : List FileInfo).length
    := by
  exact C3_retry_bound none none 5 (fun _ => NetEvent.requestError) ""
    (fun _ _ => NetEvent.requestError) (fun _ => none)
    ⟨some "a.bin", none, some "u", none, none⟩ []
    (fun st k => rfl) (by decide) (by decide)

lemma runAttempt_response_suffix (st : AttemptState) (expected : Option Nat)
    (status clen : Nat) (chunks : List (List Nat)) (sb : Bool)
    (hst : status < 400) :
    List.IsSuffix chunks.flatten
      (((runAttempt st expected
          (.response status clen chunks sb)).file).getD []) := by
  simp only [runAttempt]
  rw [if_neg (by omega)]
  repeat' split
  all_goals exact ⟨_, rfl⟩

/-- C4: the failure path truncates nothing: a failed request leaves the file
untouched, a broken or mismatched stream leaves every flushed chunk in place
(the delivered body is a suffix of the resulting file), and the next retry's
state is re-derived from the on-disk file — size as resume position, `Range`
header and append mode when the file exists, fresh write when it does not. -/
theorem C4_error_atomicity (st : AttemptState) (expected : Option Nat)
    (events : Nat → NetEvent) (fuel k : Nat) (c : List Nat)
    (status clen : Nat) (chunks : List (List Nat)) (sb : Bool)
    (hfail : (runAttempt st expected (events k)).ok = false)
    (hst : status < 400) :
    (downloadLoop expected events (fuel + 1) k st).requests
      = st :: (downloadLoop expected events fuel (k + 1)
          (retryState (runAttempt st expected (events k)).file)).requests ∧
    retryState (some c) = ⟨some c, c.length, Mode.ab, some c.length⟩ ∧
    retryState none = ⟨none, 0, Mode.wb, none⟩ ∧
    List.IsSuffix chunks.flatten
      (((runAttempt st expected
          (.response status clen chunks sb)).file).getD []) ∧
    (runAttempt st expected NetEvent.requestError).file = st.file := by
  refine ⟨?_, rfl, rfl,
    runAttempt_response_suffix st expected status clen chunks sb hst, rfl⟩
  simp only [downloadLoop, hfail, Bool.false_eq_true, if_false]

/-- Witness for C4: a one-byte file whose first attempt is a failed request;
the flushed-chunk statement is checked on a broken 200 stream. -/
theorem C4_error_atomicity_witness :
    (downloadLoop none (fun _ => NetEvent.requestError) 1 0
        ⟨some [1], 1, Mode.ab, some 1⟩).requests
      = ⟨some [1], 1, Mode.ab, some 1⟩
        :: (downloadLoop none (fun _ => NetEvent.requestError) 0 1
          (retryState (runAttempt ⟨some [1], 1, Mode.ab, some 1⟩ none
            ((fun _ => NetEvent.requestError) 0)).file)).requests ∧
    retryState (some [5]) = ⟨some [5], 1, Mode.ab, some 1⟩ ∧
    retryState none = ⟨none, 0, Mode.wb, none⟩ ∧
    List.IsSuffix (List.flatten [[2]])
      (((runAttempt ⟨some [1], 1, Mode.ab, some 1⟩ none
          (.response 206 9 [[2]] true)).file).getD []) ∧
    (runAttempt ⟨some [1], 1, Mode.ab, some 1⟩ none
        NetEvent.requestError).file = some [1] := by
  have h := C4_error_atomicity ⟨some [1], 1, Mode.ab, some 1⟩ none
    (fun _ => NetEvent.requestError) 0 0 [5] 206 9 [[2]] true rfl (by omega)
  simpa using h

lemma downloadLoop_requests_head (expected : Option Nat)
    (events : Nat → NetEvent) (fuel k : Nat) (st : AttemptState) :
    (downloadLoop expected events (fuel + 1) k st).requests.head? = some st := by
  simp only [downloadLoop]
  split
  · rfl
  · rfl

/-- C7 counterexample: a fresh download against an expected size of 5 receives
8 bytes in one completed 200 stream; the size check fails, and the second
attempt issues its request with the oversize 8-byte file still on disk and a
`Range: bytes=8-` header — the file is not discarded before that retry
attempt, contradicting the per-attempt discard claim. -/
theorem C7_oversize_retry_counterexample :
    (download_file none (some 5) 5 c7events).requests[1]?
        = some ⟨some [0, 1, 2, 3, 4, 5, 6, 7], 8, Mode.ab, some 8⟩ ∧
    truthy (some 5) = true ∧ sizeVal (some 5) < 8 := by
  decide

/-- C7 (amended): the oversize discard happens in the local check at the start
of a `download_file` call: a known expected size strictly below the local size
makes the call delete the file and issue its first request fresh from
position 0 with no `Range` header. Retry attempts inside the call do not
re-check oversize. -/
theorem C7_oversize_initial_discard (c : List Nat) (expected : Option Nat)
    (mr : Nat) (events : Nat → NetEvent)
    (ht : truthy expected = true) (hgt : sizeVal expected < c.length) :
    setup (some c) expected = .proceed ⟨none, 0, Mode.wb, none⟩ ∧
    (0 < mr →
      (download_file (some c) expected mr events).requests.head?
        = some ⟨none, 0, Mode.wb, none⟩) := by
  have hs : setup (some c) expected = .proceed ⟨none, 0, Mode.wb, none⟩ := by
    simp only [setup]
    rw [if_neg, if_pos]
    · simp only [ht, Bool.true_and, decide_eq_true_eq]
      exact hgt
    · simp only [ht, Bool.true_and, Bool.and_eq_true, decide_eq_true_eq]
      omega
  refine ⟨hs, fun hmr => ?_⟩
  unfold download_file
  rw [hs]
  cases mr with
  | zero => omega
  | succ m => exact downloadLoop_requests_head expected events m 0 _

/-- Witness for C7 (amended): a three-byte file against an expected size of
two is deleted up front and the first request is fresh. -/
theorem C7_oversize_initial_discard_witness :
    setup (some [1, 2, 3]) (some 2) = .proceed ⟨none, 0, Mode.wb, none⟩ ∧
    (download_file (some [1, 2, 3]) (some 2) 1
        (fun _ => NetEvent.requestError)).requests.head?
      = some ⟨none, 0, Mode.wb, none⟩ := by
  have h := C7_oversize_initial_discard [1, 2, 3] (some 2) 1
    (fun _ => NetEvent.requestError) (by decide) (by decide)
  exact ⟨h.1, h.2 (by decide)⟩

lemma actionCounted_false_not_failed (a : EntryAction)
    (h : actionCounted a = false) : actionFailed a = false := by
  cases a with
  | skipUnparseable => rfl
  | skipFilter => rfl
  | skipComplete => simp [actionCounted] at h
  | ran b => simp [actionCounted] at h

lemma runPass_allDownloaded_iff (kw : String) (net : String → Nat → NetEvent)
    (mr : Nat) :
    ∀ files fs, ((runPass kw net mr files fs).allDownloaded = true
      ↔ (runPass kw net mr files fs).failed = []) := by
  intro files
  induction files with
  | nil => intro fs; simp [runPass]
  | cons fi rest ih =>
    intro fs
    simp only [runPass]
    cases h : actionFailed (processEntry kw net mr fs fi).1 with
    | false => simpa [h] using ih _
    | true => simp [h]

lemma runPass_count_zero_failed (kw : String) (net : String → Nat → NetEvent)
    (mr : Nat) :
    ∀ files fs, (runPass kw net mr files fs).count = 0
      → (runPass kw net mr files fs).failed = [] := by
  intro files
  induction files with
  | nil => intro fs _; rfl
  | cons fi rest ih =>
    intro fs hc
    simp only [runPass] at hc ⊢
    cases h : actionCounted (processEntry kw net mr fs fi).1 with
    | true => rw [h] at hc; simp at hc
    | false =>
      rw [h] at hc
      simp only [if_false, Bool.false_eq_true, Nat.zero_add] at hc
      rw [actionCounted_false_not_failed _ h]
      simpa using ih _ hc

lemma runPass_all_skipComplete_failed (kw : String)
    (net : String → Nat → NetEvent) (mr : Nat) :
    ∀ files fs,
      (∀ a ∈ (runPass kw net mr files fs).actions,
        a = EntryAction.skipComplete)
      → (runPass kw net mr files fs).failed = [] := by
  intro files
  induction files with
  | nil => intro fs _; rfl
  | cons fi rest ih =>
    intro fs hall
    simp only [runPass, List.mem_cons] at hall ⊢
    have h1 : (processEntry kw net mr fs fi).1 = EntryAction.skipComplete :=
      hall _ (Or.inl rfl)
    rw [h1]
    simp only [actionFailed, if_false, List.nil_append]
    exact ih _ (fun a ha => hall a (Or.inr ha))

/-- C5: after a pass, the orchestrator starts a new pass exactly when the
pass's failure set is nonempty; it reports "no matching files" exactly when
the raw filtered count (taken before the already-complete check) is zero; it
terminates as full success exactly when something was counted and nothing
failed — in particular when every entry was skipped as already complete. -/
theorem C5_pass_loop (kw : String) (net : String → Nat → NetEvent)
    (mr : Nat) (files : List FileInfo) (fs : FS) :
    (mainStep (runPass kw net mr files fs) = .nextPass
      ↔ (runPass kw net mr files fs).failed ≠ []) ∧
    (mainStep (runPass kw net mr files fs) = .noMatching
      ↔ (runPass kw net mr files fs).count = 0) ∧
    (mainStep (runPass kw net mr files fs) = .allDone
      ↔ ((runPass kw net mr files fs).count ≠ 0
          ∧ (runPass kw net mr files fs).failed = [])) ∧
    ((∀ a ∈ (runPass kw net mr files fs).actions,
        a = EntryAction.skipComplete)
      → (runPass kw net mr files fs).count ≠ 0
      → mainStep (runPass kw net mr files fs) = .allDone) := by
  have hAD := runPass_allDownloaded_iff kw net mr files fs
  have hCF := runPass_count_zero_failed kw net mr files fs
  by_cases hc : (runPass kw net mr files fs).count = 0
  · have hf := hCF hc
    have had : (runPass kw net mr files fs).allDownloaded = true := hAD.mpr hf
    simp [mainStep, hc, hf, had]
  · by_cases hf : (runPass kw net mr files fs).failed = []
    · have had : (runPass kw net mr files fs).allDownloaded = true := hAD.mpr hf
      simp [mainStep, hc, hf, had]
    · have had : (runPass kw net mr files fs).allDownloaded = false := by
        cases h : (runPass kw net mr files fs).allDownloaded
        · rfl
        · exact absurd (hAD.mp h) hf
      simp only [mainStep, hc, if_false, had, Bool.false_eq_true]
      refine ⟨by simp [hf], by simp [hc], by simp [hf], fun hall _ => ?_⟩
      exact absurd (runPass_all_skipComplete_failed kw net mr files fs hall) hf

/-- Witness for C5: a one-entry manifest whose file is already complete — the
pass counts it, nothing fails, and the loop ends as full success. -/
theorem C5_pass_loop_witness :
    (mainStep (runPass "" (fun _ _ => NetEvent.requestError) 5
        [⟨some "a", none, some "u", none, some 3⟩] (fun _ => some [1, 2, 3]))
      = .nextPass
      ↔ (runPass "" (fun _ _ => NetEvent.requestError) 5
          [⟨some "a", none, some "u", none, some 3⟩]
          (fun _ => some [1, 2, 3])).failed ≠ []) ∧
    (mainStep (runPass "" (fun _ _ => NetEvent.requestError) 5
        [⟨some "a", none, some "u", none, some 3⟩] (fun _ => some [1, 2, 3]))
      = .noMatching
      ↔ (runPass "" (fun _ _ => NetEvent.requestError) 5
          [⟨some "a", none, some "u", none, some 3⟩]
          (fun _ => some [1, 2, 3])).count = 0) ∧
    mainStep (runPass "" (fun _ _ => NetEvent.requestError) 5
        [⟨some "a", none, some "u", none, some 3⟩] (fun _ => some [1, 2, 3]))
      = .allDone := by
  have h := C5_pass_loop "" (fun _ _ => NetEvent.requestError) 5
    [⟨some "a", none, some "u", none, some 3⟩] (fun _ => some [1, 2, 3])
  exact ⟨h.1, h.2.1, h.2.2.2 (by decide) (by decide)⟩

/-- C6: a local file whose size equals a known (nonzero) expected size makes
`download_file` succeed at once with zero requests, and makes the
orchestrator's quick check skip the entry entirely, leaving the filesystem
untouched. -/
theorem C6_idempotence (c : List Nat) (mr : Nat) (events : Nat → NetEvent)
    (kw : String) (net : String → Nat → NetEvent) (fs : FS) (fi : FileInfo)
    (hname : strTruthy (entryName fi) = true)
    (hurl : strTruthy (entryUrl fi) = true)
    (hfilter : filterSkips kw ((entryName fi).getD "") = false)
    (hfs : fs ((entryName fi).getD "") = some c)
    (ht : truthy fi.size = true)
    (hlen : c.length = sizeVal fi.size) :
    download_file (some c) fi.size mr events
      = ⟨true, some c, 0, []⟩ ∧
    processEntry kw net mr fs fi = (.skipComplete, fs, 0) := by
  have hskip : setup (some c) fi.size = .skip := by
    simp only [setup]
    rw [if_pos]
    simp [ht, hlen]
  constructor
  · unfold download_file
    rw [hskip]
  · simp only [processEntry, hname, hurl, Bool.and_self, Bool.not_true,
      Bool.false_eq_true, if_false, hfilter, hfs, ht, hlen]
    simp

/-- Witness for C6: a two-byte file with expected size 2. -/
theorem C6_idempotence_witness :
    download_file (some [4, 5]) (some 2) 5 (fun _ => NetEvent.requestError)
      = ⟨true, some [4, 5], 0, []⟩ ∧
    processEntry "" (fun _ _ => NetEvent.requestError) 5
        (fun _ => some [4, 5]) ⟨some "a.bin", none, some "u", none, some 2⟩
      = (.skipComplete, fun _ => some [4, 5], 0) := by
  have h := C6_idempotence [4, 5] 5 (fun _ => NetEvent.requestError) ""
    (fun _ _ => NetEvent.requestError) (fun _ => some [4, 5])
    ⟨some "a.bin", none, some "u", none, some 2⟩
    (by decide) (by decide) (by decide) rfl (by decide) (by decide)
  exact h

lemma downloadLoop_requests_pos (expected : Option Nat)
    (events : Nat → NetEvent) (fuel k : Nat) (st : AttemptState) :
    1 ≤ (downloadLoop expected events (fuel + 1) k st).requests.length := by
  simp only [downloadLoop]
  split
  · simp
  · simp

lemma runAttempt_response_eq (st : AttemptState) (expected : Option Nat)
    (status clen : Nat) (chunks : List (List Nat)) (sb : Bool)
    (hst : status < 400) :
    runAttempt st expected (.response status clen chunks sb)
      = if sb then
          ⟨false,
            some (streamWrite st.file
              (adjResume st.initialPos st.mode status clen).2.1 chunks),
            (adjResume st.initialPos st.mode status clen).1,
            (adjResume st.initialPos st.mode status clen).2.1,
            (adjResume st.initialPos st.mode status clen).2.2, true⟩
        else if truthy expected
            && decide ((streamWrite st.file
                (adjResume st.initialPos st.mode status clen).2.1
                chunks).length ≠ sizeVal expected) then
          ⟨false,
            some (streamWrite st.file
              (adjResume st.initialPos st.mode status clen).2.1 chunks),
            (adjResume st.initialPos st.mode status clen).1,
            (adjResume st.initialPos st.mode status clen).2.1,
            (adjResume st.initialPos st.mode status clen).2.2, true⟩
        else
          ⟨true,
            some (streamWrite st.file
              (adjResume st.initialPos st.mode status clen).2.1 chunks),
            (adjResume st.initialPos st.mode status clen).1,
            (adjResume st.initialPos st.mode status clen).2.1,
            (adjResume st.initialPos st.mode status clen).2.2, true⟩ := by
  simp only [runAttempt, adjResume, streamWrite]
  rw [if_neg (by omega)]

lemma runAttempt_complete_ok (st : AttemptState) (expected : Option Nat)
    (status clen : Nat) (chunks : List (List Nat)) (hst : status < 400) :
    (runAttempt st expected (.response status clen chunks false)).file
      = some (streamWrite st.file
          (adjResume st.initialPos st.mode status clen).2.1 chunks) ∧
    ((runAttempt st expected (.response status clen chunks false)).ok = true
      ↔ (truthy expected = true →
          (streamWrite st.file
            (adjResume st.initialPos st.mode status clen).2.1 chunks).length
            = sizeVal expected)) := by
  rw [runAttempt_response_eq st expected status clen chunks false hst]
  simp only [Bool.false_eq_true, if_false]
  by_cases hg : (truthy expected
      && decide ((streamWrite st.file
          (adjResume st.initialPos st.mode status clen).2.1
          chunks).length ≠ sizeVal expected)) = true
  · rw [if_pos hg]
    simp only [Bool.and_eq_true, decide_eq_true_eq] at hg
    simp [hg.1, hg.2]
  · rw [if_neg hg]
    simp only [Bool.and_eq_true, decide_eq_true_eq, not_and,
      Decidable.not_not] at hg
    simpa using hg

lemma downloadLoop_succ_fail (expected : Option Nat)
    (events : Nat → NetEvent) (fuel k : Nat) (st : AttemptState)
    (hfail : (runAttempt st expected (events k)).ok = false) :
    (downloadLoop expected events (fuel + 1) k st).requests
      = st :: (downloadLoop expected events fuel (k + 1)
          (retryState (runAttempt st expected (events k)).file)).requests := by
  simp only [downloadLoop, hfail, Bool.false_eq_true, if_false]

/-- C8: a completed stream succeeds iff the final local size agrees with the
expected size whenever one is known (unknown sizes always succeed), and a
failed attempt with retry budget left is followed by another request rather
than aborting. -/
theorem C8_final_size_verification (st : AttemptState) (expected : Option Nat)
    (status clen : Nat) (chunks : List (List Nat))
    (events : Nat → NetEvent) (fuel k : Nat)
    (hst : status < 400) :
    ((runAttempt st expected (.response status clen chunks false)).ok = true
      ↔ (truthy expected = true →
          (((runAttempt st expected
              (.response status clen chunks false)).file).getD []).length
            = sizeVal expected)) ∧
    ((runAttempt st expected (events k)).ok = false →
      2 ≤ (downloadLoop expected events (fuel + 1 + 1) k st).requests.length)
    := by
  constructor
  · obtain ⟨hfile, hok⟩ :=
      runAttempt_complete_ok st expected status clen chunks hst
    rw [hfile]
    simpa using hok
  · intro hfail
    rw [downloadLoop_succ_fail expected events (fuel + 1) k st hfail,
      List.length_cons]
    have h1 := downloadLoop_requests_pos expected events fuel (k + 1)
      (retryState (runAttempt st expected (events k)).file)
    omega

/-- Witness for C8: a fresh attempt delivering exactly the two expected bytes
succeeds; with all requests failing, two attempts issue two requests. -/
theorem C8_final_size_verification_witness :
    ((runAttempt ⟨none, 0, Mode.wb, none⟩ (some 2)
        (.response 200 2 [[1, 2]] false)).ok = true
      ↔ (truthy (some 2) = true →
          (((runAttempt ⟨none, 0, Mode.wb, none⟩ (some 2)
              (.response 200 2 [[1, 2]] false)).file).getD []).length
            = sizeVal (some 2))) ∧
    2 ≤ (downloadLoop (some 2) (fun _ => NetEvent.requestError) (0 + 1 + 1) 0
        ⟨none, 0, Mode.wb, none⟩).requests.length := by
  have h := C8_final_size_verification ⟨none, 0, Mode.wb, none⟩ (some 2)
    200 2 [[1, 2]] (fun _ => NetEvent.requestError) 0 0 (by omega)
  exact ⟨h.1, h.2 rfl⟩

/-- C9: with a non-empty filter keyword not occurring case-insensitively in
the entry's name, the pass never attempts the entry — it issues no request
and leaves the filesystem untouched. -/
theorem C9_filter_frame (kw : String) (net : String → Nat → NetEvent)
    (mr : Nat) (fs : FS) (fi : FileInfo)
    (hkw : kw ≠ "")
    (hnc : hasSub (lowerChars kw) (lowerChars ((entryName fi).getD ""))
      = false) :
    ((processEntry kw net mr fs fi).1 = EntryAction.skipUnparseable
      ∨ (processEntry kw net mr fs fi).1 = EntryAction.skipFilter) ∧
    (processEntry kw net mr fs fi).2.1 = fs ∧
    (processEntry kw net mr fs fi).2.2 = 0 := by
  by_cases hp : (strTruthy (entryName fi) && strTruthy (entryUrl fi)) = true
  · have hbne : (kw != "") = true := bne_iff_ne.mpr hkw
    have hfsk : filterSkips kw ((entryName fi).getD "") = true := by
      simp [filterSkips, hnc, hbne]
    simp only [processEntry, hp, Bool.not_true, Bool.false_eq_true, if_false,
      hfsk, if_true]
    exact ⟨Or.inr trivial, trivial, trivial⟩
  · simp only [Bool.not_eq_true] at hp
    simp only [processEntry, hp, Bool.not_false, if_true]
    exact ⟨Or.inl trivial, trivial, trivial⟩

/-- Witness for C9: keyword "x" against a manifest entry named "abc". -/
theorem C9_filter_frame_witness :
    ((processEntry "x" (fun _ _ => NetEvent.requestError) 5 (fun _ => none)
        ⟨some "abc", none, some "u", none, none⟩).1
        = EntryAction.skipUnparseable
      ∨ (processEntry "x" (fun _ _ => NetEvent.requestError) 5 (fun _ => none)
          ⟨some "abc", none, some "u", none, none⟩).1
        = EntryAction.skipFilter) ∧
    (processEntry "x" (fun _ _ => NetEvent.requestError) 5 (fun _ => none)
        ⟨some "abc", none, some "u", none, none⟩).2.1 = (fun _ => none) ∧
    (processEntry "x" (fun _ _ => NetEvent.requestError) 5 (fun _ => none)
        ⟨some "abc", none, some "u", none, none⟩).2.2 = 0 := by
  exact C9_filter_frame "x" (fun _ _ => NetEvent.requestError) 5 (fun _ => none)
    ⟨some "abc", none, some "u", none, none⟩ (by decide) (by decide)

lemma runAttempt_zero_none (st : AttemptState) (ev : NetEvent) :
    runAttempt st (some 0) ev = runAttempt st none ev := by
  cases ev with
  | requestError => rfl
  | response status clen chunks sb => simp [runAttempt, truthy, sizeVal]

lemma downloadLoop_zero_none (events : Nat → NetEvent) :
    ∀ fuel k st, downloadLoop (some 0) events fuel k st
      = downloadLoop none events fuel k st := by
  intro fuel
  induction fuel with
  | zero => intro k st; rfl
  | succ n ih =>
    intro k st
    simp only [downloadLoop, runAttempt_zero_none, ih]

lemma setup_zero_none (file : Option (List Nat)) :
    setup file (some 0) = setup file none := by
  cases file with
  | none => rfl
  | some c => simp [setup, truthy, sizeVal]

lemma download_file_zero_none (file : Option (List Nat)) (mr : Nat)
    (events : Nat → NetEvent) :
    download_file file (some 0) mr events
      = download_file file none mr events := by
  unfold download_file
  rw [setup_zero_none]
  cases hs : setup file none with
  | skip => rfl
  | proceed st => exact downloadLoop_zero_none events mr 0 st

/-- C10: a manifest `size` of exactly 0 behaves everywhere like an unknown
size: `download_file` and the pass body behave identically to `size = None`,
the entry is never skipped as already complete (so it is re-attempted on every
pass), and a completed stream is never size-checked. -/
theorem C10_zero_expected_size (file : Option (List Nat)) (mr : Nat)
    (events : Nat → NetEvent) (kw : String) (net : String → Nat → NetEvent)
    (fs : FS) (k f ls lc : Option String) (st : AttemptState)
    (status clen : Nat) (chunks : List (List Nat))
    (hp : strTruthy (entryName ⟨k, f, ls, lc, some 0⟩) = true)
    (hu : strTruthy (entryUrl ⟨k, f, ls, lc, some 0⟩) = true)
    (hflt : filterSkips kw ((entryName ⟨k, f, ls, lc, some 0⟩).getD "")
      = false)
    (hst : status < 400) :
    download_file file (some 0) mr events
      = download_file file none mr events ∧
    processEntry kw net mr fs ⟨k, f, ls, lc, some 0⟩
      = processEntry kw net mr fs ⟨k, f, ls, lc, none⟩ ∧
    (processEntry kw net mr fs ⟨k, f, ls, lc, some 0⟩).1
      = EntryAction.ran
          (download_file (fs ((pyOrS k f).getD "")) none mr
            (net ((pyOrS ls lc).getD ""))).success ∧
    (processEntry kw net mr fs ⟨k, f, ls, lc, some 0⟩).1
      ≠ EntryAction.skipComplete ∧
    (runAttempt st (some 0) (.response status clen chunks false)).ok = true
    := by
  have hp' := hp
  have hu' := hu
  have hflt' := hflt
  simp only [entryName, entryUrl] at hp' hu' hflt'
  have hact : (processEntry kw net mr fs ⟨k, f, ls, lc, some 0⟩).1
      = EntryAction.ran
          (download_file (fs ((pyOrS k f).getD "")) none mr
            (net ((pyOrS ls lc).getD ""))).success := by
    cases hfs : fs ((pyOrS k f).getD "") with
    | none =>
      simp [processEntry, entryName, entryUrl, hp', hu', hflt', hfs,
        download_file_zero_none]
    | some c =>
      simp [processEntry, entryName, entryUrl, hp', hu', hflt', hfs, truthy,
        download_file_zero_none]
  refine ⟨download_file_zero_none file mr events, ?_, hact, ?_, ?_⟩
  · simp only [processEntry, entryName, entryUrl, truthy, sizeVal,
      download_file_zero_none, bne_self_eq_false, Bool.false_and]
  · rw [hact]
    intro h
    cases h
  · rw [runAttempt_zero_none]
    simp only [runAttempt]
    rw [if_neg (by omega)]
    simp [truthy]

/-- Witness for C10: a parseable, unfiltered entry with `size = 0`. -/
theorem C10_zero_expected_size_witness :
    download_file none (some 0) 1 (fun _ => NetEvent.requestError)
      = download_file none none 1 (fun _ => NetEvent.requestError) ∧
    processEntry "" (fun _ _ => NetEvent.requestError) 1 (fun _ => none)
        ⟨some "a", none, some "u", none, some 0⟩
      = processEntry "" (fun _ _ => NetEvent.requestError) 1 (fun _ => none)
          ⟨some "a", none, some "u", none, none⟩ ∧
    (processEntry "" (fun _ _ => NetEvent.requestError) 1 (fun _ => none)
        ⟨some "a", none, some "u", none, some 0⟩).1
      = EntryAction.ran
          (download_file ((fun (_ : String) =>
              (none : Option (List Nat))) ((pyOrS (some "a") none).getD ""))
            none 1
            ((fun (_ : String) (_ : Nat) => NetEvent.requestError)
              ((pyOrS (some "u") none).getD ""))).success ∧
    (processEntry "" (fun _ _ => NetEvent.requestError) 1 (fun _ => none)
        ⟨some "a", none, some "u", none, some 0⟩).1
      ≠ EntryAction.skipComplete ∧
    (runAttempt ⟨none, 0, Mode.wb, none⟩ (some 0)
        (.response 200 0 [[1]] false)).ok = true := by
  exact C10_zero_expected_size none 1 (fun _ => NetEvent.requestError) ""
    (fun _ _ => NetEvent.requestError) (fun _ => none)
    (some "a") none (some "u") none ⟨none, 0, Mode.wb, none⟩ 200 0 [[1]]
    (by decide) (by decide) (by decide) (by omega)

end ZD
